import Mathlib

/-!
Verification of the async-profiler agent-argument parser (`src/arguments.cpp`).

The C++ source is embedded shallowly: every pure computation of the file
(`Arguments::hash`, `Arguments::parseUnits`, `Arguments::addEvent`,
`Arguments::detectOutputFormat`, `Arguments::expandFilePattern`, the token
loop of `Arguments::parse` and its three post-processing steps) becomes an
executable Lean definition, and the parse state becomes the `Arguments`
structure.  C strings are `String`/`List Char` (the sources only exercise
ASCII, where byte-level and character-level semantics agree); C `long` /
`int` arithmetic is `Int` (no input considered here reaches the word size,
and behaviour on signed overflow is undefined in the source anyway);
fallible handlers return `Except String` carrying the exact error message
of the source.  The buffer-ownership behaviour of `Arguments::parse`
(lines 95-101), `Arguments::save` and `Arguments::~Arguments` is modelled
separately by a small live-buffer state (`OwnRec` etc.).

The header `arguments.h` (enum constants, field defaults, `EVENT_ALLOC` /
`EVENT_LOCK`) is not part of the given sources; those constants are
modelled from the spec and marked as such.
-/

namespace ArgParse

/-- The `Action` enum of the configuration record (spec section 3). -/
inductive Action
  | NONE | START | RESUME | STOP | CHECK | STATUS | LIST | VERSION | FULL_VERSION | DUMP
deriving DecidableEq

/-- The `Output` enum of the configuration record (spec section 3). -/
inductive Output
  | NONE | COLLAPSED | FLAMEGRAPH | TREE | JFR | FLAT
deriving DecidableEq

/-- Counter type selected by the collapsed/flamegraph/tree handlers. -/
inductive Counter
  | SAMPLES | TOTAL
deriving DecidableEq

/-- Kernel/user ring filter. -/
inductive Ring
  | ANY | KERNEL | USER
deriving DecidableEq

/-- C-stack collection mode. -/
inductive CStackMode
  | FP | LBR | NO
deriving DecidableEq

/-- Modelled from the spec: `EVENT_ALLOC` of `arguments.h` (the `alloc` keyword). -/
def EVENT_ALLOC : String := "alloc"

/-- Modelled from the spec: `EVENT_LOCK` of `arguments.h` (the `lock` keyword). -/
def EVENT_LOCK : String := "lock"

/-- Modelled from the spec: the CPU-class bit of the `_events` bitmask. -/
def EK_CPU : Nat := 1

/-- Modelled from the spec: the allocation bit of the `_events` bitmask. -/
def EK_ALLOC : Nat := 2

/-- Modelled from the spec: the lock bit of the `_events` bitmask. -/
def EK_LOCK : Nat := 4

/-- Modelled from the spec: style bit set by `simple`. -/
def STYLE_SIMPLE : Nat := 1

/-- Modelled from the spec: style bit set by `dot`. -/
def STYLE_DOTTED : Nat := 2

/-- Modelled from the spec: style bit set by `sig`. -/
def STYLE_SIGNATURES : Nat := 4

/-- Modelled from the spec: style bit set by `ann`. -/
def STYLE_ANNOTATE : Nat := 8

/-- The value `INT_MAX` of `<limits.h>` on the targeted 32-bit-`int` platforms. -/
def INT_MAX : Int := 2147483647

/-- Extra buffer space reserved for expanding a file pattern (line 31). -/
def EXTRA_BUF_SIZE : Nat := 512

/-- The configuration record (`class Arguments`).  Field names follow the
source.  Modelled from the spec: the field default values (set in
`arguments.h`, which is not among the given sources) — `_interval`
10'000'000 ns, `_jstackdepth` 2048, `_safe_mode` 0, `_title` "Flame Graph",
enums at their `NONE`/`ANY` members, empty pattern lists.  `_minwidth`
stores the raw string passed to the `minwidth` handler (the source applies
`atof`; no claim depends on floating-point semantics, only on whether the
field changes).  `_include`/`_exclude` keep the appended values
most-recent-first, as the embedded linked list of the source does. -/
structure Arguments where
  _action : Action := .NONE
  _output : Output := .NONE
  _counter : Counter := .SAMPLES
  _events : Nat := 0
  _event_desc : Option String := none
  _interval : Int := 10000000
  _jstackdepth : Int := 2048
  _safe_mode : Int := 0
  _dump_flat : Int := 0
  _file : Option String := none
  _filter : Option String := none
  _include : List String := []
  _exclude : List String := []
  _threads : Bool := false
  _ring : Ring := .ANY
  _cstack : CStackMode := .FP
  _style : Nat := 0
  _begin : Option String := none
  _end : Option String := none
  _title : String := "Flame Graph"
  _minwidth : Option String := none
  _reverse : Bool := false
deriving DecidableEq

/-- A record with all defaults, as freshly constructed before a parse. -/
def Arguments.default : Arguments := {}

/-- Accumulator of `Arguments::hash` (lines 278-284): OR the low five bits
of each character into consecutive 5-bit lanes.  The C accumulator is a
64-bit `long long`; each contribution is reduced `% 2^64` (for the at most
twelve-character keywords the dispatch relies on, no reduction occurs and
the value coincides with the compile-time `HASH` macro, whose space
padding contributes zero bits). -/
def hashAux : List Char → Nat → Nat
  | [], _ => 0
  | c :: cs, shift => (((c.toNat &&& 31) <<< shift) % 18446744073709551616) ||| hashAux cs (shift + 5)

/-- Model of `Arguments::hash` (lines 278-284). -/
def hash (s : String) : Nat := hashAux s.toList 0

/-- The fixed keyword vocabulary of the dispatch switch (spec section 4.1
table), in source order. -/
def vocab : List String :=
  ["start", "resume", "stop", "check", "status", "list", "version",
   "collapsed", "folded", "flamegraph", "html", "tree", "jfr", "flat",
   "event", "interval", "jstackdepth", "safemode", "file", "filter",
   "include", "exclude", "threads", "allkernel", "alluser", "cstack",
   "simple", "dot", "sig", "ann", "begin", "end", "title", "minwidth",
   "reverse"]

/-- The whitespace characters skipped by C `strtol`. -/
def isCSpace (c : Char) : Bool :=
  c == ' ' || c == '\t' || c == '\n' || c == '\x0b' || c == '\x0c' || c == '\r'

/-- Numeric value of a digit character (99 for non-digits, so that the
`< base` test below rejects it for every base in use). -/
def digitVal (c : Char) : Nat :=
  if '0' ≤ c ∧ c ≤ '9' then c.toNat - 48
  else if 'a' ≤ c ∧ c ≤ 'f' then c.toNat - 87
  else if 'A' ≤ c ∧ c ≤ 'F' then c.toNat - 55
  else 99

/-- Whether `c` is a digit of base `base`. -/
def isDigitIn (base : Nat) (c : Char) : Bool := digitVal c < base

/-- Consume leading digits of base `base`, returning the accumulated value,
the number of digits consumed, and the rest of the string. -/
def takeDigits (base : Nat) : List Char → Nat → Nat × Nat × List Char
  | [], acc => (acc, 0, [])
  | c :: cs, acc =>
    if isDigitIn base c then
      let r := takeDigits base cs (acc * base + digitVal c)
      (r.1, r.2.1 + 1, r.2.2)
    else (acc, 0, c :: cs)

/-- C `strtol(str, &end, 0)` as used by `Arguments::parseUnits` (line 334):
skip whitespace, optional sign, then auto-detected base — `0x`/`0X`
followed by a hex digit means base 16, any other leading `0` means base 8,
otherwise base 10; when no digit is converted the result is 0 and the end
pointer is the original string.  The returned pair is (value, rest of the
string from the end pointer).  The `LONG_MAX`/`LONG_MIN` clamping of
out-of-range values is not modelled: every input considered here is far
below the 64-bit range. -/
def strtol0 (s : List Char) : Int × List Char :=
  let s1 := s.dropWhile (fun c => isCSpace c)
  let neg : Bool := match s1 with | '-' :: _ => true | _ => false
  let s2 : List Char := match s1 with | '-' :: r => r | '+' :: r => r | r => r
  let signed : Nat → Int := fun v => if neg then -(v : Int) else (v : Int)
  match s2 with
  | '0' :: x :: r =>
    if (x == 'x' || x == 'X') && (match r with | c :: _ => isDigitIn 16 c | [] => false) then
      let t := takeDigits 16 r 0
      (signed t.1, t.2.2)
    else
      let t := takeDigits 8 ('0' :: x :: r) 0
      (signed t.1, t.2.2)
  | '0' :: [] => (signed 0, [])
  | _ =>
    let t := takeDigits 10 s2 0
    if t.2.1 = 0 then (0, s) else (signed t.1, t.2.2)

/-- C `atoi`, i.e. `strtol(str, NULL, 10)`: whitespace, optional sign,
decimal digits, 0 when no digit is present. -/
def atoi (s : String) : Int :=
  let s1 := s.toList.dropWhile (fun c => isCSpace c)
  let neg : Bool := match s1 with | '-' :: _ => true | _ => false
  let s2 : List Char := match s1 with | '-' :: r => r | '+' :: r => r | r => r
  let t := takeDigits 10 s2 0
  if neg then -(t.1 : Int) else (t.1 : Int)

/-- The `switch (*end)` of `Arguments::parseUnits` (lines 336-349): `*end`
is the first character of the rest-string (`0` at the end of the string,
i.e. the empty list), and the value is multiplied by the unit factor —
or `-1` is returned for an unrecognised unit character. -/
def applyUnit (v : Int) : List Char → Int
  | [] => v
  | c :: _ =>
    if c = 'K' ∨ c = 'k' ∨ c = 'U' ∨ c = 'u' then v * 1000
    else if c = 'M' ∨ c = 'm' then v * 1000000
    else if c = 'G' ∨ c = 'g' ∨ c = 'S' ∨ c = 's' then v * 1000000000
    else -1

/-- Model of `Arguments::parseUnits` (lines 332-350): leading integer via
`strtol(str, &end, 0)`, then the unit switch on the character `*end`. -/
def parseUnits (s : String) : Int :=
  applyUnit (strtol0 s.toList).1 (strtol0 s.toList).2

/-- Modelled from the spec: the leading-integer parse exactly as section
4.3 words it — "a leading base-10 (or `0x`-prefixed) integer" — i.e. with
no octal case.  Used only to compare the spec's wording against the
source's `strtol(..., 0)`. -/
def strtolSpecB10 (s : List Char) : Int × List Char :=
  let s1 := s.dropWhile (fun c => isCSpace c)
  let neg : Bool := match s1 with | '-' :: _ => true | _ => false
  let s2 : List Char := match s1 with | '-' :: r => r | '+' :: r => r | r => r
  let signed : Nat → Int := fun v => if neg then -(v : Int) else (v : Int)
  match s2 with
  | '0' :: x :: r =>
    if (x == 'x' || x == 'X') && (match r with | c :: _ => isDigitIn 16 c | [] => false) then
      let t := takeDigits 16 r 0
      (signed t.1, t.2.2)
    else
      let t := takeDigits 10 ('0' :: x :: r) 0
      (signed t.1, t.2.2)
  | _ =>
    let t := takeDigits 10 s2 0
    if t.2.1 = 0 then (0, s) else (signed t.1, t.2.2)

/-- Modelled from the spec: `parseUnits` under the section 4.3 wording of
the leading-integer parse (`strtolSpecB10` instead of base-0 `strtol`). -/
def parseUnitsSpec (s : String) : Int :=
  applyUnit (strtolSpecB10 s.toList).1 (strtolSpecB10 s.toList).2

/-- Model of `Arguments::addEvent` (lines 256-269). -/
def addEvent (a : Arguments) (event : String) : Option Arguments :=
  if event = EVENT_ALLOC then some { a with _events := a._events ||| EK_ALLOC }
  else if event = EVENT_LOCK then some { a with _events := a._events ||| EK_LOCK }
  else if a._events &&& EK_CPU ≠ 0 then none
  else some { a with _events := a._events ||| EK_CPU, _event_desc := some event }

/-- Iterated `addEvent`: `n` successive calls with the same event name, as produced
by repeating `event=...` within one parse. -/
def addEventN (event : String) : Nat → Arguments → Option Arguments
  | 0, a => some a
  | n + 1, a => (addEvent a event).bind (addEventN event n)

/-- The `event` handler (lines 151-158). -/
def eventCase (a : Arguments) (value : Option String) : Except String Arguments :=
  match value with
  | none => .error "event must not be empty"
  | some v =>
    if v = "" then .error "event must not be empty"
    else
      match addEvent a v with
      | none => .error "multiple incompatible events"
      | some b => .ok b

/-- The `interval` handler (lines 160-163). -/
def intervalCase (a : Arguments) (value : Option String) : Except String Arguments :=
  match value with
  | none => .error "Invalid interval"
  | some v =>
    if parseUnits v ≤ 0 then .error "Invalid interval"
    else .ok { a with _interval := parseUnits v }

/-- The `jstackdepth` handler (lines 165-168). -/
def jstackdepthCase (a : Arguments) (value : Option String) : Except String Arguments :=
  match value with
  | none => .error "jstackdepth must be > 0"
  | some v =>
    if atoi v ≤ 0 then .error "jstackdepth must be > 0"
    else .ok { a with _jstackdepth := atoi v }

/-- The `file` handler (lines 173-177). -/
def fileCase (a : Arguments) (value : Option String) : Except String Arguments :=
  match value with
  | none => .error "file must not be empty"
  | some v =>
    if v = "" then .error "file must not be empty"
    else .ok { a with _file := some v }

/-- One branch label per `CASE` of the dispatch switch, in source order;
`kCollapsed` covers the `CASE2("collapsed", "folded")` pair and
`kFlamegraph` the `CASE2("flamegraph", "html")` pair.  `kUnknown` is the
fall-through for a hash that matches no case. -/
inductive Keyword
  | kStart | kResume | kStop | kCheck | kStatus | kList | kVersion
  | kCollapsed | kFlamegraph | kTree | kJfr | kFlat
  | kEvent | kInterval | kJstackdepth | kSafemode | kFile
  | kFilter | kInclude | kExclude | kThreads | kAllkernel | kAlluser | kCstack
  | kSimple | kDot | kSig | kAnn | kBegin | kEnd | kTitle | kMinwidth | kReverse
  | kUnknown
deriving DecidableEq

/-- The `SWITCH`/`CASE` comparison chain of `Arguments::parse` (lines
107-237, macros of lines 40-45): compare the token hash against each
statically hashed keyword in source order. -/
def keywordOf (h : Nat) : Keyword :=
  if h = hash "start" then .kStart
  else if h = hash "resume" then .kResume
  else if h = hash "stop" then .kStop
  else if h = hash "check" then .kCheck
  else if h = hash "status" then .kStatus
  else if h = hash "list" then .kList
  else if h = hash "version" then .kVersion
  else if h = hash "collapsed" ∨ h = hash "folded" then .kCollapsed
  else if h = hash "flamegraph" ∨ h = hash "html" then .kFlamegraph
  else if h = hash "tree" then .kTree
  else if h = hash "jfr" then .kJfr
  else if h = hash "flat" then .kFlat
  else if h = hash "event" then .kEvent
  else if h = hash "interval" then .kInterval
  else if h = hash "jstackdepth" then .kJstackdepth
  else if h = hash "safemode" then .kSafemode
  else if h = hash "file" then .kFile
  else if h = hash "filter" then .kFilter
  else if h = hash "include" then .kInclude
  else if h = hash "exclude" then .kExclude
  else if h = hash "threads" then .kThreads
  else if h = hash "allkernel" then .kAllkernel
  else if h = hash "alluser" then .kAlluser
  else if h = hash "cstack" then .kCstack
  else if h = hash "simple" then .kSimple
  else if h = hash "dot" then .kDot
  else if h = hash "sig" then .kSig
  else if h = hash "ann" then .kAnn
  else if h = hash "begin" then .kBegin
  else if h = hash "end" then .kEnd
  else if h = hash "title" then .kTitle
  else if h = hash "minwidth" then .kMinwidth
  else if h = hash "reverse" then .kReverse
  else .kUnknown

/-- One iteration of the `SWITCH`/`CASE` chain of `Arguments::parse`
(lines 107-237), dispatching on the hash of `key`; `value` is `none` when
the token had no `=` (a NULL `value` pointer in the source).  An unmatched
hash (`kUnknown`) falls through: the token is ignored. -/
def dispatch (a : Arguments) (key : String) (value : Option String) : Except String Arguments :=
  match keywordOf (hash key) with
  | .kStart => .ok { a with _action := .START }
  | .kResume => .ok { a with _action := .RESUME }
  | .kStop => .ok { a with _action := .STOP }
  | .kCheck => .ok { a with _action := .CHECK }
  | .kStatus => .ok { a with _action := .STATUS }
  | .kList => .ok { a with _action := .LIST }
  | .kVersion => .ok { a with _action := if value = none then .VERSION else .FULL_VERSION }
  | .kCollapsed =>
    .ok { a with _output := .COLLAPSED,
                 _counter := if value = none ∨ value = some "samples" then .SAMPLES else .TOTAL }
  | .kFlamegraph =>
    .ok { a with _output := .FLAMEGRAPH,
                 _counter := if value = none ∨ value = some "samples" then .SAMPLES else .TOTAL }
  | .kTree =>
    .ok { a with _output := .TREE,
                 _counter := if value = none ∨ value = some "samples" then .SAMPLES else .TOTAL }
  | .kJfr => .ok { a with _output := .JFR }
  | .kFlat =>
    .ok { a with _output := .FLAT,
                 _dump_flat := match value with | none => INT_MAX | some v => atoi v }
  | .kEvent => eventCase a value
  | .kInterval => intervalCase a value
  | .kJstackdepth => jstackdepthCase a value
  | .kSafemode =>
    .ok { a with _safe_mode := match value with | none => INT_MAX | some v => atoi v }
  | .kFile => fileCase a value
  | .kFilter => .ok { a with _filter := some (match value with | none => "" | some v => v) }
  | .kInclude =>
    .ok { a with _include := match value with | none => a._include | some v => v :: a._include }
  | .kExclude =>
    .ok { a with _exclude := match value with | none => a._exclude | some v => v :: a._exclude }
  | .kThreads => .ok { a with _threads := true }
  | .kAllkernel => .ok { a with _ring := .KERNEL }
  | .kAlluser => .ok { a with _ring := .USER }
  | .kCstack =>
    .ok { a with _cstack :=
      match value with
      | none => a._cstack
      | some v =>
        match v.toList with
        | 'n' :: _ => .NO
        | 'l' :: _ => .LBR
        | _ => .FP }
  | .kSimple => .ok { a with _style := a._style ||| STYLE_SIMPLE }
  | .kDot => .ok { a with _style := a._style ||| STYLE_DOTTED }
  | .kSig => .ok { a with _style := a._style ||| STYLE_SIGNATURES }
  | .kAnn => .ok { a with _style := a._style ||| STYLE_ANNOTATE }
  | .kBegin => .ok { a with _begin := value }
  | .kEnd => .ok { a with _end := value }
  | .kTitle => .ok { a with _title := match value with | none => a._title | some v => v }
  | .kMinwidth =>
    .ok { a with _minwidth := match value with | none => a._minwidth | some v => some v }
  | .kReverse => .ok { a with _reverse := true }
  | .kUnknown => .ok a

/-- Split one token at its first `=` (the `strchr(arg, '=')` of line 104;
`*value++ = 0` makes the key stop there and the value start after it) and
dispatch it. -/
def processToken (a : Arguments) (tok : List Char) : Except String Arguments :=
  let key : String := ⟨tok.takeWhile (fun c => c != '=')⟩
  match tok.dropWhile (fun c => c != '=') with
  | [] => dispatch a key none
  | _ :: v => dispatch a key (some (⟨v⟩ : String))

/-- Split a character list at every occurrence of `sep` (keeping empty
segments; `tokenize` drops them, as `strtok` does). -/
def splitChar (sep : Char) : List Char → List (List Char)
  | [] => [[]]
  | c :: cs =>
    match splitChar sep cs with
    | [] => [[]]
    | t :: ts => if c = sep then [] :: t :: ts else (c :: t) :: ts

/-- The `strtok(_buf, ",")` token stream of line 103: split on `,`,
skipping empty tokens. -/
def tokenize (s : String) : List (List Char) :=
  (splitChar ',' s.toList).filter (fun t => !t.isEmpty)

/-- The token loop of `Arguments::parse` (lines 103-238). -/
def processTokens (a : Arguments) : List (List Char) → Except String Arguments
  | [] => .ok a
  | t :: ts =>
    match processToken a t with
    | .error e => .error e
    | .ok b => processTokens b ts

/-- The suffix of a character list after its last `.`, or `none` when it
has no `.` — the `strrchr(file, '.')` of line 319 (the returned `ext`
pointer includes the dot, so comparing `ext` with `".html"` is comparing
this suffix with `"html"`). -/
def afterLastDot : List Char → Option (List Char)
  | [] => none
  | c :: cs =>
    match afterLastDot cs with
    | some e => some e
    | none => if c = '.' then some cs else none

/-- Model of `Arguments::detectOutputFormat` (lines 318-330) over a character
list. -/
def detectL (f : List Char) : Output :=
  match afterLastDot f with
  | some ext =>
    if ext = "html".toList then .FLAMEGRAPH
    else if ext = "jfr".toList then .JFR
    else if ext = "collapsed".toList ∨ ext = "folded".toList then .COLLAPSED
    else .FLAT
  | none => .FLAT

/-- Model of `Arguments::detectOutputFormat` (lines 318-330). -/
def detectOutputFormat (f : String) : Output := detectL f.toList

/-- The copy loop of `Arguments::expandFilePattern` (lines 288-316).
`endPos` is `end - dest = max_size - 1`, `ptr` the current write offset,
`acc` the characters stored so far.  A `%p`/`%t` expansion mirrors
`ptr += snprintf(ptr, end - ptr, ...)`: at most `end - ptr - 1` characters
are stored, but `ptr` advances by the full untruncated length that
`snprintf` returns.  The result is (characters stored, offset at which the
final `*ptr = 0` of line 314 is stored). -/
def expandLoop (pid ts : List Char) (endPos : Nat) : List Char → Nat → List Char → List Char × Nat
  | [], ptr, acc => (acc, ptr)
  | c :: pat, ptr, acc =>
    if ptr < endPos then
      if c = '%' then
        match pat with
        | [] => (acc, ptr)
        | c2 :: pat2 =>
          if c2 = 'p' then
            expandLoop pid ts endPos pat2 (ptr + pid.length) (acc ++ pid.take (endPos - ptr - 1))
          else if c2 = 't' then
            expandLoop pid ts endPos pat2 (ptr + ts.length) (acc ++ ts.take (endPos - ptr - 1))
          else
            expandLoop pid ts endPos pat2 (ptr + 1) (acc ++ [c2])
      else expandLoop pid ts endPos pat (ptr + 1) (acc ++ [c])
    else (acc, ptr)

/-- Model of `Arguments::expandFilePattern` (lines 288-316), parameterised by the
process-id and timestamp strings the environment supplies for `%p` and
`%t`.  Returns the produced string and the offset of the final NUL
store. -/
def expandFilePattern (pid ts : String) (max_size : Nat) (pattern : String) : List Char × Nat :=
  expandLoop pid.toList ts.toList (max_size - 1) pattern.toList 0 []

/-- Post-step 1 of `Arguments::parse` (lines 240-242): expand `_file`
in-place when it contains `%`, with capacity `EXTRA_BUF_SIZE - 1`. -/
def finalizeFile (pid ts : String) (a : Arguments) : Arguments :=
  match a._file with
  | some f =>
    if f.toList.contains '%' then
      { a with _file := some (⟨(expandFilePattern pid ts (EXTRA_BUF_SIZE - 1) f).1⟩ : String) }
    else a
  | none => a

/-- Post-step 2 of `Arguments::parse` (lines 244-247): infer the output
format from the file name when none was chosen, and set `_dump_flat` to
200. -/
def inferOutput (a : Arguments) : Arguments :=
  match a._file with
  | some f =>
    if a._output = .NONE then { a with _output := detectOutputFormat f, _dump_flat := 200 }
    else a
  | none => a

/-- Post-step 3 of `Arguments::parse` (lines 249-251): force the action to
`DUMP` when an output was selected but the action is still `NONE` or
`STOP`. -/
def inferAction (a : Arguments) : Arguments :=
  if a._output ≠ .NONE ∧ (a._action = .NONE ∨ a._action = .STOP) then
    { a with _action := .DUMP }
  else a

/-- Model of `Arguments::parse` (lines 90-254) on a non-NULL argument string,
parameterised by the `%p`/`%t` expansion strings. -/
def parse (pid ts : String) (a : Arguments) (args : String) : Except String Arguments :=
  (processTokens a (tokenize args)).map
    (fun b => inferAction (inferOutput (finalizeFile pid ts b)))

/-- Ownership state of one record: its backing buffer (a heap identifier,
`none` for a NULL `_buf`) and its `_shared` flag. -/
structure OwnRec where
  buf : Option Nat
  shared : Bool
deriving DecidableEq

/-- Model of `free(_buf)` on the live-buffer list (`free(NULL)` is a no-op). -/
def freeBuf (live : List Nat) (b : Option Nat) : List Nat :=
  match b with
  | none => live
  | some id => live.filter (fun x => x ≠ id)

/-- Lines 95-97 of `Arguments::parse`: `free(_buf); _buf = malloc(...)` —
the previous buffer is released unconditionally (no `_shared` test) and a
fresh buffer `fresh` is installed; `_shared` is left as it was. -/
def parseBufSetup (live : List Nat) (r : OwnRec) (fresh : Nat) : List Nat × OwnRec :=
  (fresh :: freeBuf live r.buf, { r with buf := some fresh })

/-- Model of `Arguments::save` (lines 356-360), called as `dst.save(src)`: release
the destination's buffer unless shared, copy all fields of the source into
the destination, and mark the source shared.  Returns (live buffers, new
destination, new source). -/
def saveModel (live : List Nat) (dst src : OwnRec) : List Nat × OwnRec × OwnRec :=
  let live1 := if dst.shared then live else freeBuf live dst.buf
  (live1, src, { src with shared := true })

/-- Model of `Arguments::~Arguments` (lines 352-354): release the buffer unless
shared. -/
def dtorModel (live : List Nat) (r : OwnRec) : List Nat :=
  if r.shared then live else freeBuf live r.buf

/-- The operation `addEvent` never touches `_interval`. -/
theorem addEvent_interval {a : Arguments} {e : String} {b : Arguments}
    (h : addEvent a e = some b) : b._interval = a._interval := by
  unfold addEvent at h
  split_ifs at h <;> (injection h with h; subst h; rfl)

/-- A successful `event` handler never touches `_interval`. -/
theorem eventCase_interval {a : Arguments} {v : Option String} {b : Arguments}
    (h : eventCase a v = .ok b) : b._interval = a._interval := by
  cases v with
  | none => exact Except.noConfusion h
  | some s =>
    simp only [eventCase] at h
    split_ifs at h
    all_goals first
      | exact Except.noConfusion h
      | (cases hae : addEvent a s with
         | none => rw [hae] at h; exact Except.noConfusion h
         | some c => rw [hae] at h; injection h with h; subst h; exact addEvent_interval hae)

/-- A successful `interval` handler leaves `_interval` positive. -/
theorem intervalCase_pos {a : Arguments} {v : Option String} {b : Arguments}
    (h : intervalCase a v = .ok b) : 0 < b._interval := by
  cases v with
  | none => exact Except.noConfusion h
  | some s =>
    simp only [intervalCase] at h
    split_ifs at h with hle
    all_goals first
      | exact Except.noConfusion h
      | (injection h with h; subst h; exact lt_of_not_le hle)

/-- A successful `jstackdepth` handler never touches `_interval`. -/
theorem jstackdepthCase_interval {a : Arguments} {v : Option String} {b : Arguments}
    (h : jstackdepthCase a v = .ok b) : b._interval = a._interval := by
  cases v with
  | none => exact Except.noConfusion h
  | some s =>
    simp only [jstackdepthCase] at h
    split_ifs at h
    all_goals first
      | exact Except.noConfusion h
      | (injection h with h; subst h; rfl)

/-- A successful `file` handler never touches `_interval`. -/
theorem fileCase_interval {a : Arguments} {v : Option String} {b : Arguments}
    (h : fileCase a v = .ok b) : b._interval = a._interval := by
  cases v with
  | none => exact Except.noConfusion h
  | some s =>
    simp only [fileCase] at h
    split_ifs at h
    all_goals first
      | exact Except.noConfusion h
      | (injection h with h; subst h; rfl)

/-- Step over a branch of the comparison chain whose condition is false. -/
theorem ite_skip {c : Prop} [Decidable c] {α : Type} {x y z : α}
    (hc : ¬c) (h : y = z) : (if c then x else y) = z := by
  rw [if_neg hc]
  exact h

set_option maxHeartbeats 1600000 in
/-- Every successful dispatch branch keeps `_interval` positive. -/
theorem dispatch_pres_interval {a : Arguments} {k : String} {v : Option String} {b : Arguments}
    (h : dispatch a k v = .ok b) (ha : 0 < a._interval) : 0 < b._interval := by
  unfold dispatch at h
  cases hk : keywordOf (hash k) <;> rw [hk] at h <;>
    first
      | (injection h with h; subst h; exact ha)
      | (rw [eventCase_interval h]; exact ha)
      | exact intervalCase_pos h
      | (rw [jstackdepthCase_interval h]; exact ha)
      | (rw [fileCase_interval h]; exact ha)

/-- Token-level version of `dispatch_pres_interval`. -/
theorem processToken_pres_interval {a : Arguments} {t : List Char} {b : Arguments}
    (h : processToken a t = .ok b) (ha : 0 < a._interval) : 0 < b._interval := by
  unfold processToken at h
  cases hd : t.dropWhile (fun c => c != '=') with
  | nil => rw [hd] at h; exact dispatch_pres_interval h ha
  | cons c v => rw [hd] at h; exact dispatch_pres_interval h ha

/-- The token loop preserves positivity of `_interval`. -/
theorem processTokens_pres_interval : ∀ (ts : List (List Char)) (a b : Arguments),
    processTokens a ts = .ok b → 0 < a._interval → 0 < b._interval := by
  intro ts
  induction ts with
  | nil =>
    intro a b h ha
    injection h with h
    subst h
    exact ha
  | cons t ts ih =>
    intro a b h ha
    simp only [processTokens] at h
    cases hp : processToken a t with
    | error e => rw [hp] at h; exact Except.noConfusion h
    | ok c =>
      rw [hp] at h
      exact ih c b h (processToken_pres_interval hp ha)

/-- File-pattern expansion does not touch `_interval`. -/
theorem finalizeFile_interval (p t : String) (a : Arguments) :
    (finalizeFile p t a)._interval = a._interval := by
  cases hf : a._file with
  | none => simp only [finalizeFile, hf]
  | some f =>
    simp only [finalizeFile, hf]
    split_ifs <;> rfl

/-- Output inference does not touch `_interval`. -/
theorem inferOutput_interval (a : Arguments) :
    (inferOutput a)._interval = a._interval := by
  cases hf : a._file with
  | none => simp only [inferOutput, hf]
  | some f =>
    simp only [inferOutput, hf]
    split_ifs <;> rfl

/-- Action inference does not touch `_interval`. -/
theorem inferAction_interval (a : Arguments) :
    (inferAction a)._interval = a._interval := by
  unfold inferAction
  split_ifs <;> rfl

/-- Applying `afterLastDot` to a dot-free list gives `none`. -/
theorem afterLastDot_no_dot : ∀ l : List Char, '.' ∉ l → afterLastDot l = none := by
  intro l
  induction l with
  | nil => intro _; rfl
  | cons c cs ih =>
    intro h
    simp only [List.mem_cons, not_or] at h
    simp only [afterLastDot, ih h.2]
    rw [if_neg (fun e => h.1 e.symm)]

/-- Applying `afterLastDot` after appending a final `.ext` with dot-free `ext`. -/
theorem afterLastDot_append : ∀ l e : List Char, '.' ∉ e →
    afterLastDot (l ++ '.' :: e) = some e := by
  intro l e he
  induction l with
  | nil =>
    simp [afterLastDot, afterLastDot_no_dot e he]
  | cons c cs ih =>
    simp [afterLastDot, ih]

/-- A hash matching no vocabulary hash falls through the whole comparison
chain. -/
theorem keywordOf_unknown (k : String) (h : hash k ∉ vocab.map hash) :
    keywordOf (hash k) = .kUnknown := by
  have hne : ∀ w, w ∈ vocab → ¬ hash k = hash w := by
    intro w hw e
    exact h (by rw [e]; exact List.mem_map_of_mem hash hw)
  unfold keywordOf
  exact
    ite_skip (hne "start" (by decide)) <|
    ite_skip (hne "resume" (by decide)) <|
    ite_skip (hne "stop" (by decide)) <|
    ite_skip (hne "check" (by decide)) <|
    ite_skip (hne "status" (by decide)) <|
    ite_skip (hne "list" (by decide)) <|
    ite_skip (hne "version" (by decide)) <|
    ite_skip (not_or.mpr ⟨hne "collapsed" (by decide), hne "folded" (by decide)⟩) <|
    ite_skip (not_or.mpr ⟨hne "flamegraph" (by decide), hne "html" (by decide)⟩) <|
    ite_skip (hne "tree" (by decide)) <|
    ite_skip (hne "jfr" (by decide)) <|
    ite_skip (hne "flat" (by decide)) <|
    ite_skip (hne "event" (by decide)) <|
    ite_skip (hne "interval" (by decide)) <|
    ite_skip (hne "jstackdepth" (by decide)) <|
    ite_skip (hne "safemode" (by decide)) <|
    ite_skip (hne "file" (by decide)) <|
    ite_skip (hne "filter" (by decide)) <|
    ite_skip (hne "include" (by decide)) <|
    ite_skip (hne "exclude" (by decide)) <|
    ite_skip (hne "threads" (by decide)) <|
    ite_skip (hne "allkernel" (by decide)) <|
    ite_skip (hne "alluser" (by decide)) <|
    ite_skip (hne "cstack" (by decide)) <|
    ite_skip (hne "simple" (by decide)) <|
    ite_skip (hne "dot" (by decide)) <|
    ite_skip (hne "sig" (by decide)) <|
    ite_skip (hne "ann" (by decide)) <|
    ite_skip (hne "begin" (by decide)) <|
    ite_skip (hne "end" (by decide)) <|
    ite_skip (hne "title" (by decide)) <|
    ite_skip (hne "minwidth" (by decide)) <|
    ite_skip (hne "reverse" (by decide)) rfl

/-- Iterating an `addEvent` that only ORs one fixed bit collapses to a
single application. -/
theorem addEventN_collapse (e : String) (bit : Nat)
    (hstep : ∀ a : Arguments, addEvent a e = some { a with _events := a._events ||| bit }) :
    ∀ (n : Nat) (a : Arguments), addEventN e (n + 1) a = addEvent a e := by
  intro n
  induction n with
  | zero =>
    intro a
    show (addEvent a e).bind (addEventN e 0) = addEvent a e
    rw [hstep a]
    rfl
  | succ m ih =>
    intro a
    calc addEventN e (m + 1 + 1) a = (addEvent a e).bind (addEventN e (m + 1)) := rfl
      _ = addEventN e (m + 1) { a with _events := a._events ||| bit } := by rw [hstep a]; rfl
      _ = addEvent { a with _events := a._events ||| bit } e := ih _
      _ = some { a with _events := a._events ||| bit ||| bit } := hstep _
      _ = some { a with _events := a._events ||| bit } := by rw [Nat.or_assoc, Nat.or_self]
      _ = addEvent a e := (hstep a).symm

/-- C1 counterexample: the claim asserts that `start,file=out.jfr` yields
`action = Dump`; the code leaves `action = Start` (`START` is neither
`NONE` nor `STOP`, so line 249 does not fire), and `Start` is not
`Dump`. -/
theorem C1_counterexample :
    (parse "1" "t" Arguments.default "start,file=out.jfr").map (fun r => r._action) =
      .ok .START ∧ Action.START ≠ Action.DUMP :=
  ⟨rfl, by decide⟩

/-- C1 (amended): after all tokens are processed, if `output` is set while
`action` is still `NONE` or `STOP`, the action becomes `DUMP`, and it is
preserved otherwise; consequently `start,file=out.jfr` keeps
`action = Start`, `stop,file=out.jfr` yields `Dump`, and
`check,file=out.jfr` keeps `Check`. -/
theorem C1_theorem :
    (∀ a : Arguments, a._output ≠ .NONE → (a._action = .NONE ∨ a._action = .STOP) →
       inferAction a = { a with _action := .DUMP }) ∧
    (∀ a : Arguments, a._action ≠ .NONE → a._action ≠ .STOP → inferAction a = a) ∧
    (∀ a : Arguments, a._output = .NONE → inferAction a = a) ∧
    (parse "1" "t" Arguments.default "start,file=out.jfr").map (fun r => r._action) =
      .ok .START ∧
    (parse "1" "t" Arguments.default "stop,file=out.jfr").map (fun r => r._action) =
      .ok .DUMP ∧
    (parse "1" "t" Arguments.default "check,file=out.jfr").map (fun r => r._action) =
      .ok .CHECK := by
  refine ⟨?_, ?_, ?_, rfl, rfl, rfl⟩
  · intro a h1 h2
    unfold inferAction
    rw [if_pos ⟨h1, h2⟩]
  · intro a h1 h2
    unfold inferAction
    rw [if_neg (fun hc => hc.2.elim h1 h2)]
  · intro a h1
    unfold inferAction
    rw [if_neg (fun hc => hc.1 h1)]

/-- Witness for C1: the promotion rule applied to concrete records with
`output = Jfr` and action `STOP` (promoted) resp. `CHECK` (kept). -/
theorem C1_witness :
    inferAction { Arguments.default with _output := .JFR, _action := .STOP } =
      { Arguments.default with _output := .JFR, _action := .DUMP } ∧
    inferAction { Arguments.default with _output := .JFR, _action := .CHECK } =
      { Arguments.default with _output := .JFR, _action := .CHECK } :=
  ⟨C1_theorem.1 _ (by decide) (by decide), C1_theorem.2.1 _ (by decide) (by decide)⟩

/-- C2 counterexample: `START` is not (case-sensitively) in the fixed
vocabulary, yet its 5-bit hash collides with `start` (`c & 31` identifies
case), so the token `START` is dispatched and changes the record. -/
theorem C2_counterexample :
    "START" ∉ vocab ∧
    processToken Arguments.default "START".toList =
      .ok { Arguments.default with _action := .START } ∧
    { Arguments.default with _action := Action.START } ≠ Arguments.default :=
  ⟨by decide, rfl, by decide⟩

/-- C2 (amended): for every token whose key hashes (low five bits of each
character packed into 5-bit lanes) to a value different from the hash of
every fixed vocabulary keyword, dispatch succeeds and returns the record
unchanged. -/
theorem C2_theorem (a : Arguments) (key : String) (value : Option String)
    (h : hash key ∉ vocab.map hash) : dispatch a key value = .ok a := by
  unfold dispatch
  rw [keywordOf_unknown key h]

/-- Witness for C2: the unknown key `zzzz` with a value, on the default
record. -/
theorem C2_witness : dispatch Arguments.default "zzzz" (some "1") = .ok Arguments.default :=
  C2_theorem Arguments.default "zzzz" (some "1") (by decide)

/-- C3: the claim says a re-parse does not release storage marked shared;
but lines 95-97 free `_buf` unconditionally.  After `dst.save(src)` the
buffer (id 0) is shared — still referenced by `dst` — yet a subsequent
parse on `src` removes it from the live set. -/
theorem C3_theorem :
    saveModel [0, 1] ⟨some 1, false⟩ ⟨some 0, false⟩ =
      ([0], ⟨some 0, false⟩, ⟨some 0, true⟩) ∧
    parseBufSetup [0] ⟨some 0, true⟩ 2 = ([2], ⟨some 2, true⟩) ∧
    0 ∉ ([2] : List Nat) :=
  ⟨rfl, rfl, by decide⟩

/-- C4 counterexample: the claim reads the leading integer as base-10 (or
`0x`-prefixed); on `"010"` that reading gives 10, while the code's
`strtol(..., 0)` parses octal and gives 8. -/
theorem C4_counterexample :
    parseUnits "010" = 8 ∧ parseUnitsSpec "010" = 10 ∧
    parseUnits "010" ≠ parseUnitsSpec "010" :=
  ⟨rfl, rfl, by decide⟩

/-- C4 (amended): `parseUnits` parses a leading integer with C
`strtol(..., 0)` semantics (base 10, `0x`-prefixed hexadecimal, or
`0`-prefixed octal) and then inspects exactly the first trailing
character: none keeps the value, `k`/`K`/`u`/`U` multiplies by 1,000,
`m`/`M` by 1,000,000, `g`/`G`/`s`/`S` by 1,000,000,000, anything else
yields `-1`; hence `10ms` yields 10,000,000, `5s` yields 5,000,000,000,
and `abc` and `0` make the interval handler fail. -/
theorem C4_theorem :
    (∀ (s : String) (v : Int), strtol0 s.toList = (v, []) → parseUnits s = v) ∧
    (∀ (s : String) (v : Int) (c : Char) (r : List Char), strtol0 s.toList = (v, c :: r) →
       c = 'K' ∨ c = 'k' ∨ c = 'U' ∨ c = 'u' → parseUnits s = v * 1000) ∧
    (∀ (s : String) (v : Int) (c : Char) (r : List Char), strtol0 s.toList = (v, c :: r) →
       c = 'M' ∨ c = 'm' → parseUnits s = v * 1000000) ∧
    (∀ (s : String) (v : Int) (c : Char) (r : List Char), strtol0 s.toList = (v, c :: r) →
       c = 'G' ∨ c = 'g' ∨ c = 'S' ∨ c = 's' → parseUnits s = v * 1000000000) ∧
    (∀ (s : String) (v : Int) (c : Char) (r : List Char), strtol0 s.toList = (v, c :: r) →
       ¬(c = 'K' ∨ c = 'k' ∨ c = 'U' ∨ c = 'u') → ¬(c = 'M' ∨ c = 'm') →
       ¬(c = 'G' ∨ c = 'g' ∨ c = 'S' ∨ c = 's') → parseUnits s = -1) ∧
    parseUnits "10ms" = 10000000 ∧
    parseUnits "5s" = 5000000000 ∧
    (parse "1" "t" Arguments.default "interval=10ms").map (fun r => r._interval) =
      .ok 10000000 ∧
    (parse "1" "t" Arguments.default "interval=5s").map (fun r => r._interval) =
      .ok 5000000000 ∧
    parse "1" "t" Arguments.default "interval=abc" = .error "Invalid interval" ∧
    parse "1" "t" Arguments.default "interval=0" = .error "Invalid interval" := by
  refine ⟨?_, ?_, ?_, ?_, ?_, rfl, rfl, rfl, rfl, rfl, rfl⟩
  · intro s v h
    unfold parseUnits
    rw [h]
    rfl
  · intro s v c r h hu
    unfold parseUnits
    rw [h]
    show applyUnit v (c :: r) = v * 1000
    simp only [applyUnit]
    rw [if_pos hu]
  · intro s v c r h hu
    unfold parseUnits
    rw [h]
    show applyUnit v (c :: r) = v * 1000000
    rcases hu with hc | hc <;> subst hc <;> simp [applyUnit]
  · intro s v c r h hu
    unfold parseUnits
    rw [h]
    show applyUnit v (c :: r) = v * 1000000000
    rcases hu with hc | hc | hc | hc <;> subst hc <;> simp [applyUnit]
  · intro s v c r h h1 h2 h3
    unfold parseUnits
    rw [h]
    show applyUnit v (c :: r) = -1
    simp only [applyUnit]
    rw [if_neg h1, if_neg h2, if_neg h3]

/-- Witness for C4: each unit branch of the amended rule evaluated at a
concrete input. -/
theorem C4_witness :
    parseUnits "2" = 2 ∧ parseUnits "7k" = 7000 ∧ parseUnits "7m" = 7000000 ∧
    parseUnits "7g" = 7000000000 ∧ parseUnits "7z" = -1 :=
  ⟨C4_theorem.1 "2" 2 rfl,
   C4_theorem.2.1 "7k" 7 'k' [] rfl (by decide),
   C4_theorem.2.2.1 "7m" 7 'm' [] rfl (by decide),
   C4_theorem.2.2.2.1 "7g" 7 'g' [] rfl (by decide),
   C4_theorem.2.2.2.2.1 "7z" 7 'z' [] rfl (by decide) (by decide) (by decide)⟩

/-- C5: the claim says `expandFilePattern` never writes beyond the
provided capacity; but `ptr += snprintf(...)` (lines 299/305) adds the
untruncated would-be length, so with pattern `%p`, capacity 3 and pid
12345 the final `*ptr = 0` of line 314 is stored at offset 5 — past the
last in-capacity offset `max_size - 1 = 2`. -/
theorem C5_theorem :
    expandFilePattern "12345" "20250101-000000" 3 "%p" = (['1'], 5) ∧
    3 - 1 < (expandFilePattern "12345" "20250101-000000" 3 "%p").2 :=
  ⟨rfl, by decide⟩

/-- C6: `alloc` and `lock` each set their own bit and always succeed; any
other event name needs the CPU slot, which only one event may take —
a second CPU-class event fails the parse with "multiple incompatible
events"; the three example strings behave as claimed. -/
theorem C6_theorem :
    (∀ a : Arguments, addEvent a EVENT_ALLOC =
       some { a with _events := a._events ||| EK_ALLOC }) ∧
    (∀ a : Arguments, addEvent a EVENT_LOCK =
       some { a with _events := a._events ||| EK_LOCK }) ∧
    (∀ (a : Arguments) (e : String), e ≠ EVENT_ALLOC → e ≠ EVENT_LOCK →
       a._events &&& EK_CPU ≠ 0 → addEvent a e = none) ∧
    (∀ (a : Arguments) (e : String), e ≠ EVENT_ALLOC → e ≠ EVENT_LOCK →
       a._events &&& EK_CPU = 0 →
       addEvent a e = some { a with _events := a._events ||| EK_CPU, _event_desc := some e }) ∧
    (parse "1" "t" Arguments.default "event=alloc,event=lock").map
      (fun r => (r._events, r._event_desc)) = .ok (EK_ALLOC ||| EK_LOCK, none) ∧
    parse "1" "t" Arguments.default "event=cpu,event=wall" =
      .error "multiple incompatible events" ∧
    (parse "1" "t" Arguments.default "event=cpu,event=alloc,event=lock").map
      (fun r => (r._events, r._event_desc)) =
      .ok (EK_CPU ||| EK_ALLOC ||| EK_LOCK, some "cpu") := by
  refine ⟨fun a => rfl, fun a => rfl, ?_, ?_, rfl, rfl, rfl⟩
  · intro a e h1 h2 h3
    unfold addEvent
    rw [if_neg h1, if_neg h2, if_pos h3]
  · intro a e h1 h2 h3
    unfold addEvent
    rw [if_neg h1, if_neg h2, if_neg (fun hc => hc h3)]

/-- Witness for C6: a second CPU-class event (`wall` after `cpu`) is
rejected, and a first CPU-class event takes the slot. -/
theorem C6_witness :
    addEvent { Arguments.default with _events := EK_CPU } "wall" = none ∧
    addEvent Arguments.default "cpu" =
      some { Arguments.default with _events := EK_CPU, _event_desc := some "cpu" } :=
  ⟨C6_theorem.2.2.1 _ "wall" (by decide) (by decide) (by decide),
   C6_theorem.2.2.2.1 _ "cpu" (by decide) (by decide) (by decide)⟩

/-- C7: when a file is set and no output was chosen, the output is
inferred from the extension after the last dot (`.html` FlameGraph,
`.jfr` Jfr, `.collapsed`/`.folded` Collapsed, anything else — including no
extension — Flat) and the flat limit becomes 200; `file=out.html` alone
gives FlameGraph with limit 200 and `file=out.unknownext` gives Flat. -/
theorem C7_theorem :
    (∀ (a : Arguments) (f : String), a._file = some f → a._output = .NONE →
       inferOutput a = { a with _output := detectOutputFormat f, _dump_flat := 200 }) ∧
    (∀ pre : List Char, detectL (pre ++ '.' :: "html".toList) = .FLAMEGRAPH) ∧
    (∀ pre : List Char, detectL (pre ++ '.' :: "jfr".toList) = .JFR) ∧
    (∀ pre : List Char, detectL (pre ++ '.' :: "collapsed".toList) = .COLLAPSED) ∧
    (∀ pre : List Char, detectL (pre ++ '.' :: "folded".toList) = .COLLAPSED) ∧
    (∀ pre ext : List Char, '.' ∉ ext → ext ≠ "html".toList → ext ≠ "jfr".toList →
       ext ≠ "collapsed".toList → ext ≠ "folded".toList →
       detectL (pre ++ '.' :: ext) = .FLAT) ∧
    (∀ f : List Char, '.' ∉ f → detectL f = .FLAT) ∧
    (parse "1" "t" Arguments.default "file=out.html").map
      (fun r => (r._output, r._dump_flat)) = .ok (.FLAMEGRAPH, 200) ∧
    (parse "1" "t" Arguments.default "file=out.unknownext").map (fun r => r._output) =
      .ok .FLAT := by
  refine ⟨?_, ?_, ?_, ?_, ?_, ?_, ?_, rfl, rfl⟩
  · intro a f hf ho
    simp only [inferOutput, hf]
    rw [if_pos ho]
  · intro pre
    unfold detectL
    rw [afterLastDot_append pre _ (by decide)]
    rfl
  · intro pre
    unfold detectL
    rw [afterLastDot_append pre _ (by decide)]
    rfl
  · intro pre
    unfold detectL
    rw [afterLastDot_append pre _ (by decide)]
    rfl
  · intro pre
    unfold detectL
    rw [afterLastDot_append pre _ (by decide)]
    rfl
  · intro pre ext hdot h1 h2 h3 h4
    unfold detectL
    rw [afterLastDot_append pre ext hdot]
    show (if ext = "html".toList then Output.FLAMEGRAPH
          else if ext = "jfr".toList then Output.JFR
          else if ext = "collapsed".toList ∨ ext = "folded".toList then Output.COLLAPSED
          else Output.FLAT) = Output.FLAT
    rw [if_neg h1, if_neg h2, if_neg (not_or.mpr ⟨h3, h4⟩)]
  · intro f hf
    unfold detectL
    rw [afterLastDot_no_dot f hf]

/-- Witness for C7: inference on a concrete record, an unknown extension,
and a dot-free name. -/
theorem C7_witness :
    inferOutput { Arguments.default with _file := some "x.folded" } =
      { Arguments.default with _file := some "x.folded",
                               _output := detectOutputFormat "x.folded", _dump_flat := 200 } ∧
    detectL ("out".toList ++ '.' :: "xyz".toList) = .FLAT ∧
    detectL "noext".toList = .FLAT :=
  ⟨C7_theorem.1 _ "x.folded" rfl rfl,
   C7_theorem.2.2.2.2.2.1 _ _ (by decide) (by decide) (by decide) (by decide) (by decide),
   C7_theorem.2.2.2.2.2.2.1 _ (by decide)⟩

/-- C8: whenever a parse starting from the default record succeeds, the
interval field is strictly positive — it starts at the positive default
10,000,000 and the `interval` handler aborts the parse rather than store a
non-positive or unparsable value. -/
theorem C8_theorem (pid ts args : String) (b : Arguments)
    (h : parse pid ts Arguments.default args = .ok b) : 0 < b._interval := by
  unfold parse at h
  cases hp : processTokens Arguments.default (tokenize args) with
  | error e => rw [hp] at h; exact Except.noConfusion h
  | ok c =>
    rw [hp] at h
    injection h with h
    subst h
    rw [inferAction_interval, inferOutput_interval, finalizeFile_interval]
    exact processTokens_pres_interval _ _ _ hp (by decide)

/-- Witness for C8: the empty argument string parses successfully and
leaves the positive default interval. -/
theorem C8_witness : 0 < Arguments.default._interval :=
  C8_theorem "1" "t" "" Arguments.default rfl

/-- C9: a bare `begin` or `end` token (no `=`) stores the NULL value
pointer, resetting the field to unset and erasing a value assigned
earlier in the same parse. -/
theorem C9_theorem :
    (∀ a : Arguments, dispatch a "begin" none = .ok { a with _begin := none }) ∧
    (∀ a : Arguments, dispatch a "end" none = .ok { a with _end := none }) ∧
    (processTokens Arguments.default (tokenize "begin=foo")).map (fun r => r._begin) =
      .ok (some "foo") ∧
    (parse "1" "t" Arguments.default "begin=foo,begin").map (fun r => r._begin) = .ok none ∧
    (parse "1" "t" Arguments.default "end=bar,end").map (fun r => r._end) = .ok none :=
  ⟨fun _ => rfl, fun _ => rfl, rfl, rfl, rfl⟩

/-- C10: adding `alloc` or `lock` always succeeds, only ORs the respective
bit (never touching the CPU event description), and repeating the token
any number of times equals a single occurrence. -/
theorem C10_theorem (a : Arguments) (n : Nat) :
    addEvent a EVENT_ALLOC = some { a with _events := a._events ||| EK_ALLOC } ∧
    addEvent a EVENT_LOCK = some { a with _events := a._events ||| EK_LOCK } ∧
    addEventN EVENT_ALLOC (n + 1) a = addEvent a EVENT_ALLOC ∧
    addEventN EVENT_LOCK (n + 1) a = addEvent a EVENT_LOCK :=
  ⟨rfl, rfl,
   addEventN_collapse EVENT_ALLOC EK_ALLOC (fun _ => rfl) n a,
   addEventN_collapse EVENT_LOCK EK_LOCK (fun _ => rfl) n a⟩

end ArgParse
